import Mathlib

/-!
Shallow embedding of `tacotron/feeder_adapt.py` (the training-data feeder of
this Tacotron-2 fork): metadata handling, example loading, per-device batch
padding/assembly, the production-loop grouping, and the bounded input queue.

Python lists/arrays are embedded as Lean `List`s; floats as `Rat` (the only
float values the feeder itself creates are 0.0, 1.0 and `-max_abs_value`);
Python ints as `Nat`/`Int`.  The in-place `np.random.shuffle` calls are
nondeterministic permutations and are modelled by quantifying over the
(already permuted) input order, or over a permutation hypothesis.  A Python
`assert` failure or `int()` parse failure is modelled by `Option`.
-/

namespace Tacotron

/-- The fields of `hparams` that `feeder_adapt.py` reads. -/
structure HParams where
  symmetric_mels : Bool
  max_abs_value : Rat
  tacotron_num_gpus : Nat
  tacotron_batch_size : Nat
  outputs_per_step : Nat
  num_mels : Nat
  num_freq : Nat
  predict_linear : Bool
  spk_dependent_embedding : Bool

/-- `_batches_per_group = 64` (feeder_adapt.py line 11). -/
def batches_per_group : Nat := 64

/-- `_round_up(x, multiple)` (lines 203-205), with `remainder = x % multiple`
inlined. -/
def round_up (x multiple : Nat) : Nat :=
  if x % multiple = 0 then x else x + multiple - x % multiple

/-- Python `max` over a list of naturals (callers only apply it to nonempty
lists, where this agrees with Python). -/
def maxNat (l : List Nat) : Nat := l.foldl max 0

/-- `self._pad = 0` (line 41): token-id sequences are padded with 0. -/
def pad : Int := 0

/-- `self._token_pad = 1.` (line 49): stop-flag sequences are padded with 1.0. -/
def token_pad : Rat := 1

/-- `self._target_pad` (lines 44-47): `-max_abs_value` when `symmetric_mels`,
else `0.`. -/
def target_pad (hp : HParams) : Rat :=
  if hp.symmetric_mels then -hp.max_abs_value else 0

/-- `_pad_input` (lines 194-195): right-pad a token-id row with `self._pad`. -/
def pad_input (x : List Int) (length : Nat) : List Int :=
  x ++ List.replicate (length - x.length) pad

/-- `_pad_target` (lines 197-198): right-pad a 2D target along the time axis
with rows of the constant `self._target_pad`; `np.pad` takes the row width
from the array itself. -/
def pad_target (tp : Rat) (t : List (List Rat)) (length : Nat) : List (List Rat) :=
  t ++ List.replicate (length - t.length) (List.replicate (t.headD []).length tp)

/-- `_pad_token_target` (lines 200-201): right-pad a stop-flag row with
`self._token_pad`. -/
def pad_token_target (t : List Rat) (length : Nat) : List Rat :=
  t ++ List.replicate (length - t.length) token_pad

/-- `_prepare_inputs` (lines 180-182): pad every token row to the shard's
maximum token length (no `round_up` here) and return it with that width. -/
def prepare_inputs (inputs : List (List Int)) : List (List Int) × Nat :=
  let max_len := maxNat (inputs.map List.length)
  (inputs.map (fun x => pad_input x max_len), max_len)

/-- `_prepare_targets` (lines 184-187): pad every mel/linear array to
`round_up(shard max time length, alignment)`. -/
def prepare_targets (tp : Rat) (targets : List (List (List Rat))) (alignment : Nat) :
    List (List (List Rat)) × Nat :=
  let max_len := maxNat (targets.map List.length)
  let data_len := round_up max_len alignment
  (targets.map (fun t => pad_target tp t data_len), data_len)

/-- `_prepare_token_targets` (lines 189-192): pad every stop-flag row to
`round_up(shard max stop length + 1, alignment)`. -/
def prepare_token_targets (targets : List (List Rat)) (alignment : Nat) :
    List (List Rat) × Nat :=
  let max_len := maxNat (targets.map List.length) + 1
  let data_len := round_up max_len alignment
  (targets.map (fun t => pad_token_target t data_len), data_len)

/-- The tuple returned by `_get_next_example` (line 139):
`(input_data, mel_target, token_target, linear_target, speaker_id,
spk_embedding, len(mel_target))`. -/
structure Example where
  input_data : List Int
  mel_target : List (List Rat)
  token_target : List Rat
  linear_target : List (List Rat)
  speaker_id : String
  spk_embedding : Option (List Rat)
  mel_length : Nat

/-- `_get_next_example` (lines 114-139), for one already-drawn metadata record
`meta` (a `|`-split line).  The external collaborators `text_to_sequence` and
`np.load` are passed in as pure functions, as the spec specifies them at their
interface.  Note the indices actually read: text `meta[6]`, speaker `meta[7]`,
mel file `meta[1]`, speaker-embedding file `meta[1]`, linear file `meta[2]`.
`[0.] * (len(mel) - 1)` is the empty list when `len(mel) = 0`, matching
truncated `Nat` subtraction. -/
def get_next_example (encode : String → List Int)
    (load_mel load_linear : String → List (List Rat))
    (load_spk_embedding : String → List Rat)
    (hp : HParams) (meta : List String) : Example :=
  let text := meta.getD 6 ""
  let speaker_id := meta.getD 7 ""
  let input_data := encode text
  let mel_target := load_mel (meta.getD 1 "")
  let spk_embedding :=
    if hp.spk_dependent_embedding then some (load_spk_embedding (meta.getD 1 "")) else none
  let token_target := List.replicate (mel_target.length - 1) (0 : Rat)
  let linear_target :=
    if hp.predict_linear then load_linear (meta.getD 2 "")
    else List.replicate mel_target.length (List.replicate hp.num_freq (0 : Rat))
  ⟨input_data, mel_target, token_target, linear_target, speaker_id, spk_embedding,
    mel_target.length⟩

/-- Decimal digit value of a character, if it is a digit. -/
def digitVal (c : Char) : Option Nat :=
  if 48 ≤ c.toNat ∧ c.toNat ≤ 57 then some (c.toNat - 48) else none

/-- Accumulate decimal digits; `none` on a non-digit or on no digits at all. -/
def parseNatChars : List Char → Option Nat → Option Nat
  | [], acc => acc
  | c :: cs, acc =>
    match digitVal c, acc with
    | some d, some a => parseNatChars cs (some (a * 10 + d))
    | some d, none => parseNatChars cs (some d)
    | none, _ => none

/-- Python's `int(s)` on an optionally-negated decimal string, as applied to
the frame-count metadata field; a failed parse (which raises `ValueError` in
Python) is `none`. -/
def parse_int (s : String) : Option Int :=
  match s.data with
  | '-' :: rest => (parseNatChars rest none).map (fun n => -(n : Int))
  | l => (parseNatChars l none).map (fun n => (n : Int))

/-- The feeder state set up by `Feeder.__init__` (lines 17-49); the
TensorFlow placeholder/queue construction is graph plumbing and carries no
data. -/
structure FeederState where
  train_meta : List (List String)
  train_offset : Nat
  pad : Int
  target_pad : Rat
  token_pad : Rat

/-- `Feeder.__init__` (lines 17-49) on already-split metadata lines.  The only
data-dependent failure at construction time is the `int(x[4])` parse inside the
hours computation (line 32); there is no divisibility check between
`tacotron_batch_size` and `tacotron_num_gpus` here. -/
def feeder_init (hp : HParams) (metadata : List (List String)) : Option FeederState :=
  if metadata.all (fun x => (parse_int (x.getD 4 "")).isSome) then
    some ⟨metadata, 0, 0, target_pad hp, 1⟩
  else none

/-- The slice `batches[size_per_device*i : size_per_device*(i+1)]`
(line 161). -/
def device_batch (hp : HParams) (batches : List Example) (i : Nat) : List Example :=
  let size_per_device := batches.length / hp.tacotron_num_gpus
  (batches.drop (size_per_device * i)).take size_per_device

/-- `np.concatenate((a, b), axis=1)` on per-row lists: rows are zipped and
appended (axis 1 is the time axis for 2D tensors and for the row lists of 3D
tensors alike). -/
def concat_axis1 {α : Type} (a b : List (List α)) : List (List α) :=
  a.zipWith (· ++ ·) b

/-- One step of the accumulation
`x = np.concatenate((x, cur), axis=1) if x is not None else cur`
(lines 163, 165, 169, 171). -/
def concat_step {α : Type} (acc : Option (List (List α))) (cur : List (List α)) :
    Option (List (List α)) :=
  match acc with
  | none => some cur
  | some a => some (concat_axis1 a cur)

/-- The accumulation pattern of lines 163-171 folded over the device loop:
starting from `None`, combine each device tensor with `concat_step`. -/
def concat_devices {α : Type} (tensors : List (List (List α))) : Option (List (List α)) :=
  tensors.foldl concat_step none

/-- The tuple assembled by `_prepare_batch` (lines 146-178). -/
structure PreparedBatch where
  inputs : List (List Int)
  input_lengths : List Nat
  mel_targets : List (List (List Rat))
  token_targets : List (List Rat)
  linear_targets : List (List (List Rat))
  targets_lengths : List Nat
  split_infos : List (List Nat)
  speaker_ids : List String

/-- Device `i`'s padded input tensor and width (line 162). -/
def device_inputs (hp : HParams) (batches : List Example) (i : Nat) :
    List (List Int) × Nat :=
  prepare_inputs ((device_batch hp batches i).map Example.input_data)

/-- Device `i`'s padded mel tensor and width (line 164). -/
def device_mel_targets (hp : HParams) (batches : List Example) (r i : Nat) :
    List (List (List Rat)) × Nat :=
  prepare_targets (target_pad hp) ((device_batch hp batches i).map Example.mel_target) r

/-- Device `i`'s padded stop-flag tensor and width (line 168). -/
def device_token_targets (hp : HParams) (batches : List Example) (r i : Nat) :
    List (List Rat) × Nat :=
  prepare_token_targets ((device_batch hp batches i).map Example.token_target) r

/-- Device `i`'s padded linear tensor and width (line 170). -/
def device_linear_targets (hp : HParams) (batches : List Example) (r i : Nat) :
    List (List (List Rat)) × Nat :=
  prepare_targets (target_pad hp) ((device_batch hp batches i).map Example.linear_target) r

/-- The tensors computed by the body of `_prepare_batch` (lines 144-178).
The in-place `np.random.shuffle(batches)` (line 144) is modelled by taking
`batches` in its post-shuffle order (all statements below quantify over that
order).  Each global tensor is the device-loop accumulation of the per-device
padded tensors with `np.concatenate(..., axis=1)`. -/
def prepare_batch_val (hp : HParams) (batches : List Example)
    (outputs_per_step : Nat) : PreparedBatch :=
  let g := hp.tacotron_num_gpus
  ⟨(concat_devices ((List.range g).map (fun i => (device_inputs hp batches i).1))).getD [],
       batches.map (fun x => x.input_data.length),
       (concat_devices ((List.range g).map
         (fun i => (device_mel_targets hp batches outputs_per_step i).1))).getD [],
       (concat_devices ((List.range g).map
         (fun i => (device_token_targets hp batches outputs_per_step i).1))).getD [],
       (concat_devices ((List.range g).map
         (fun i => (device_linear_targets hp batches outputs_per_step i).1))).getD [],
       batches.map Example.mel_length,
       (List.range g).map (fun i =>
         [(device_inputs hp batches i).2,
          (device_mel_targets hp batches outputs_per_step i).2,
          (device_token_targets hp batches outputs_per_step i).2,
          (device_linear_targets hp batches outputs_per_step i).2]),
       batches.map Example.speaker_id⟩

/-- `_prepare_batch` (lines 141-178): the leading
`assert 0 == len(batches) % tacotron_num_gpus` is modelled by `Option`; the
rest of the function computes `prepare_batch_val`. -/
def prepare_batch (hp : HParams) (batches : List Example) (outputs_per_step : Nat) :
    Option PreparedBatch :=
  if batches.length % hp.tacotron_num_gpus ≠ 0 then none
  else some (prepare_batch_val hp batches outputs_per_step)

/-- The combination rule claimed by the spec, for comparison: concatenate the
per-device shard tensors along the batch axis (axis 0), i.e. stack their
rows.  This follows the spec's words, not the source. -/
def specConcatAxis0 {α : Type} (tensors : List (List (List α))) : List (List α) :=
  tensors.flatten

/-- The sort `examples.sort(key=lambda x: x[-1])` (line 105): stable sort by
true mel length. -/
def sort_examples (examples : List Example) : List Example :=
  examples.mergeSort (fun a b => decide (a.mel_length ≤ b.mel_length))

/-- `batches = [examples[i: i+n] for i in range(0, len(examples), n)]`
(line 106): `range(0, L, n)` has `ceil(L/n)` elements `k*n`. -/
def make_batches {α : Type} (n : Nat) (examples : List α) : List (List α) :=
  (List.range ((examples.length + n - 1) / n)).map
    (fun k => (examples.drop (k * n)).take n)

/-- The capacity of the bounded input queue:
`tf.FIFOQueue(_batches_per_group, ...)` (line 70). -/
def queue_capacity : Nat := batches_per_group

/-- Observable state of the bounded FIFO queue between producer and consumer:
how many batches are buffered and how many the producer has enqueued in
total. -/
structure QueueState where
  queued : Nat
  produced : Nat

/-- Modelled from the spec: `session.run(self._enqueue_op)` (line 112) on the
bounded `tf.FIFOQueue` blocks while the queue is full (spec section 5:
"producer blocks on enqueue when the channel is full").  A blocked attempt
changes nothing; an unblocked attempt buffers one batch and counts it as
produced. -/
def try_enqueue (cap : Nat) (s : QueueState) : QueueState :=
  if s.queued < cap then ⟨s.queued + 1, s.produced + 1⟩ else s

/-- Modelled from the spec: the consumer's dequeue removes one buffered batch
(spec section 5); it does not change the producer's count. -/
def dequeue_step (s : QueueState) : QueueState := ⟨s.queued - 1, s.produced⟩

/-- `int(x[4])` as used in the startup hours computation (line 32). -/
def frame_count (meta : List String) : Option Int := parse_int (meta.getD 4 "")

/-! ### Helper lemmas -/

theorem foldl_max_max (l : List Nat) (a b : Nat) :
    l.foldl max (max a b) = max a (l.foldl max b) := by
  induction l generalizing b with
  | nil => rfl
  | cons c t ih =>
    simp only [List.foldl_cons]
    rw [max_assoc]
    exact ih (max b c)

theorem maxNat_cons (a : Nat) (l : List Nat) : maxNat (a :: l) = max a (maxNat l) := by
  simp only [maxNat, List.foldl_cons]
  rw [Nat.max_comm, foldl_max_max]

theorem le_maxNat {x : Nat} {l : List Nat} (h : x ∈ l) : x ≤ maxNat l := by
  induction l with
  | nil => cases h
  | cons a t ih =>
    rw [maxNat_cons]
    rcases List.mem_cons.mp h with rfl | h
    · exact le_max_left _ _
    · exact le_trans (ih h) (le_max_right _ _)

theorem maxNat_map_sub_one (l : List Nat) (hne : l ≠ []) (h1 : ∀ x ∈ l, 1 ≤ x) :
    maxNat (l.map (fun x => x - 1)) + 1 = maxNat l := by
  induction l with
  | nil => cases hne rfl
  | cons a t ih =>
    have ha := h1 a (List.mem_cons_self a t)
    cases t with
    | nil =>
      simp only [List.map_cons, List.map_nil, maxNat, List.foldl_cons, List.foldl_nil]
      omega
    | cons b u =>
      have hrec := ih (by simp) (fun x hx => h1 x (List.mem_cons_of_mem a hx))
      rw [List.map_cons, maxNat_cons, maxNat_cons a (b :: u)]
      omega

theorem round_up_mod (x m : Nat) (hm : 1 ≤ m) : round_up x m % m = 0 := by
  unfold round_up
  by_cases h : x % m = 0
  · simp [h]
  · simp only [h, if_false]
    have hdm := Nat.div_add_mod x m
    have h2 : x + m - x % m = m * (x / m) + m := by omega
    rw [h2, Nat.mul_add_mod, Nat.mod_self]

theorem le_round_up (x m : Nat) (hm : 1 ≤ m) : x ≤ round_up x m := by
  unfold round_up
  by_cases h : x % m = 0
  · simp [h]
  · simp only [h, if_false]
    have hlt : x % m < m := Nat.mod_lt x hm
    omega

/-! ### Claim C2 -/

/-- C2 counterexample: `_prepare_inputs` performs no `round_up`; a shard whose
longest token row has length 5 gets padded input width 5, which is not
divisible by `outputs_per_step = 4`. -/
theorem prepare_inputs_width_not_aligned :
    (prepare_inputs [[1, 2, 3, 4, 5]]).2 = 5 ∧
    ¬(prepare_inputs [[1, 2, 3, 4, 5]]).2 % 4 = 0 := by decide

/-- C2 (amended): for `outputs_per_step = m ≥ 1`, the padded mel/linear width
from `_prepare_targets` and the padded stop-flag width from
`_prepare_token_targets` are divisible by `m`, but the padded input width from
`_prepare_inputs` is the shard's raw maximum token length, with no rounding. -/
theorem prepare_widths_alignment (tp : Rat) (targets : List (List (List Rat)))
    (tok_targets : List (List Rat)) (inputs : List (List Int)) (m : Nat)
    (hm : 1 ≤ m) :
    (prepare_targets tp targets m).2 % m = 0 ∧
    (prepare_token_targets tok_targets m).2 % m = 0 ∧
    (prepare_inputs inputs).2 = maxNat (inputs.map List.length) := by
  refine ⟨?_, ?_, rfl⟩ <;> exact round_up_mod _ _ hm

/-- Witness for C2 (amended) at a concrete shard and `m = 4`. -/
theorem prepare_widths_alignment_witness :
    (prepare_targets 0 [[[0]]] 4).2 % 4 = 0 ∧
    (prepare_token_targets [[0]] 4).2 % 4 = 0 ∧
    (prepare_inputs [[1]]).2 = maxNat ([[1]].map List.length) :=
  prepare_widths_alignment 0 [[[0]]] [[0]] [[1]] 4 (by decide)

/-! ### Claim C3 -/

/-- C3 counterexample: one example of true mel length `T = 4` (so its stop-flag
row, built by `_get_next_example`, has 3 zeros); with `outputs_per_step = 4`
the code's stop-flag width is `round_up(3 + 1, 4) = 4`, not the claimed
`round_up(T + 1, 4) = 8`. -/
theorem stop_width_not_round_up_T_plus_one :
    (get_next_example (fun _ => []) (fun _ => List.replicate 4 [0]) (fun _ => [])
        (fun _ => []) ⟨false, 4, 1, 1, 4, 1, 1, false, false⟩
        ["a", "b", "x", "x", "4", "x", "t", "0"]).token_target
      = List.replicate 3 (0 : Rat) ∧
    (prepare_token_targets [List.replicate 3 (0 : Rat)] 4).2 = 4 ∧
    round_up (4 + 1) 4 = 8 ∧
    ¬(prepare_token_targets [List.replicate 3 (0 : Rat)] 4).2 = round_up (4 + 1) 4 := by
  decide

/-- C3 (amended): for a nonempty shard whose stop-flag rows each have length
`mel_length - 1` with `mel_length ≥ 1`, the padded stop-flag width equals
`round_up(T, outputs_per_step)` where `T` is the shard's maximum true mel
length (the code computes `round_up(max stop length + 1, m)` and
`max stop length + 1 = T`). -/
theorem token_target_width (exs : List Example) (m : Nat) (hne : exs ≠ [])
    (hlen : ∀ e ∈ exs, e.token_target.length = e.mel_length - 1)
    (hpos : ∀ e ∈ exs, 1 ≤ e.mel_length) :
    (prepare_token_targets (exs.map Example.token_target) m).2 =
      round_up (maxNat (exs.map Example.mel_length)) m := by
  have h1 : (exs.map Example.token_target).map List.length
      = (exs.map Example.mel_length).map (fun x => x - 1) := by
    simp only [List.map_map]
    exact List.map_congr_left (fun e he => by simp [Function.comp, hlen e he])
  have h2 : maxNat ((exs.map Example.mel_length).map (fun x => x - 1)) + 1
      = maxNat (exs.map Example.mel_length) := by
    apply maxNat_map_sub_one
    · simpa using hne
    · intro x hx
      obtain ⟨e, he, rfl⟩ := List.mem_map.mp hx
      exact hpos e he
  simp only [prepare_token_targets, h1, h2]

/-- Witness for C3 (amended): a one-example shard with mel length 4 and
`m = 4` gets stop-flag width `round_up(4, 4) = 4`. -/
theorem token_target_width_witness :
    (prepare_token_targets
        ([(⟨[], List.replicate 4 [0], List.replicate 3 0, [], "", none, 4⟩ : Example)].map
          Example.token_target) 4).2 =
      round_up (maxNat ([(⟨[], List.replicate 4 [0], List.replicate 3 0, [], "", none,
        4⟩ : Example)].map Example.mel_length)) 4 :=
  token_target_width _ 4 (by simp) (by intro e he; simp at he; subst he; simp)
    (by intro e he; simp at he; subst he; simp)

/-! ### Claim C6 -/

/-- C6: an Example built by `_get_next_example` from a record whose mel array
has `T ≥ 1` frames has `mel_length = T` and a stop-flag row of exactly `T - 1`
elements, all equal to 0. -/
theorem get_next_example_lengths (encode : String → List Int)
    (load_mel load_linear : String → List (List Rat)) (load_spk : String → List Rat)
    (hp : HParams) (meta : List String) (T : Nat)
    (hT : (load_mel (meta.getD 1 "")).length = T) (h1 : 1 ≤ T) :
    (get_next_example encode load_mel load_linear load_spk hp meta).mel_length = T ∧
    (get_next_example encode load_mel load_linear load_spk hp meta).token_target.length
      = T - 1 ∧
    ∀ v ∈ (get_next_example encode load_mel load_linear load_spk hp meta).token_target,
      v = 0 := by
  refine ⟨?_, ?_, ?_⟩
  · simp only [get_next_example]
    exact hT
  · simp only [get_next_example, List.length_replicate]
    rw [hT]
  · intro v hv
    simp only [get_next_example] at hv
    exact List.eq_of_mem_replicate hv

/-- Witness for C6 at a concrete loader returning a 5-frame mel array. -/
theorem get_next_example_lengths_witness :
    (get_next_example (fun _ => []) (fun _ => List.replicate 5 [0]) (fun _ => [])
      (fun _ => []) ⟨false, 4, 1, 1, 1, 1, 1, false, false⟩ []).mel_length = 5 ∧
    (get_next_example (fun _ => []) (fun _ => List.replicate 5 [0]) (fun _ => [])
      (fun _ => []) ⟨false, 4, 1, 1, 1, 1, 1, false, false⟩ []).token_target.length
      = 5 - 1 ∧
    ∀ v ∈ (get_next_example (fun _ => []) (fun _ => List.replicate 5 [0]) (fun _ => [])
      (fun _ => []) ⟨false, 4, 1, 1, 1, 1, 1, false, false⟩ []).token_target, v = 0 :=
  get_next_example_lengths _ _ _ _ _ [] 5 (by decide) (by decide)

/-! ### Generic padding lemmas (all three pad functions share the shape
`xs ++ replicate (L - len xs) p`) -/

theorem pad_length {α : Type} (xs : List α) (p : α) (L : Nat) (h : xs.length ≤ L) :
    (xs ++ List.replicate (L - xs.length) p).length = L := by
  simp only [List.length_append, List.length_replicate]
  omega

theorem pad_getD_lt {α : Type} (xs : List α) (p d : α) (L i : Nat)
    (h : i < xs.length) :
    (xs ++ List.replicate (L - xs.length) p).getD i d = xs.getD i d :=
  List.getD_append _ _ _ _ h

theorem pad_getD_ge {α : Type} (xs : List α) (p d : α) (L i : Nat)
    (hle : xs.length ≤ i) (hlt : i < L) :
    (xs ++ List.replicate (L - xs.length) p).getD i d = p := by
  rw [List.getD_append_right _ _ _ _ hle]
  have hi : i - xs.length < L - xs.length := by omega
  simp [List.getD_eq_getElem?_getD, List.getElem?_replicate, hi]

/-! ### Claim C7 -/

/-- C7: every padded row keeps its true prefix unchanged, and every position
at or beyond the true length holds exactly the pad value: `self._pad = 0` for
token-id inputs, `self._token_pad = 1.0` for stop flags, and rows of
`self._target_pad` (which is `-max_abs_value` when `symmetric_mels`, else 0)
for mel/linear targets. -/
theorem padding_values (hp : HParams) (x : List Int) (t : List (List Rat))
    (tok : List Rat) (L1 L2 L3 i : Nat) (di : Int) (dr : Rat)
    (hx : x.length ≤ L1) (ht : t.length ≤ L2) (htok : tok.length ≤ L3) :
    pad = 0 ∧ token_pad = 1 ∧
    (hp.symmetric_mels = true → target_pad hp = -hp.max_abs_value) ∧
    (hp.symmetric_mels = false → target_pad hp = 0) ∧
    (pad_input x L1).length = L1 ∧
    (i < x.length → (pad_input x L1).getD i di = x.getD i di) ∧
    (x.length ≤ i → i < L1 → (pad_input x L1).getD i di = pad) ∧
    (pad_target (target_pad hp) t L2).length = L2 ∧
    (i < t.length → (pad_target (target_pad hp) t L2).getD i [] = t.getD i []) ∧
    (t.length ≤ i → i < L2 →
      (pad_target (target_pad hp) t L2).getD i []
        = List.replicate (t.headD []).length (target_pad hp)) ∧
    (pad_token_target tok L3).length = L3 ∧
    (i < tok.length → (pad_token_target tok L3).getD i dr = tok.getD i dr) ∧
    (tok.length ≤ i → i < L3 → (pad_token_target tok L3).getD i dr = token_pad) := by
  refine ⟨rfl, rfl, fun h => by simp [target_pad, h], fun h => by simp [target_pad, h],
    pad_length x pad L1 hx,
    fun h => pad_getD_lt x pad di L1 i h,
    fun h1 h2 => pad_getD_ge x pad di L1 i h1 h2,
    pad_length t _ L2 ht,
    fun h => pad_getD_lt t _ [] L2 i h,
    fun h1 h2 => pad_getD_ge t _ [] L2 i h1 h2,
    pad_length tok token_pad L3 htok,
    fun h => pad_getD_lt tok token_pad dr L3 i h,
    fun h1 h2 => pad_getD_ge tok token_pad dr L3 i h1 h2⟩

/-- Witness for C7 at concrete rows padded from length 1 to length 2,
inspecting position `i = 1` (the padded region). -/
theorem padding_values_witness :
    pad = 0 ∧ token_pad = 1 ∧
    ((⟨true, 4, 1, 1, 1, 1, 1, false, false⟩ : HParams).symmetric_mels = true →
      target_pad ⟨true, 4, 1, 1, 1, 1, 1, false, false⟩
        = -(⟨true, 4, 1, 1, 1, 1, 1, false, false⟩ : HParams).max_abs_value) ∧
    ((⟨true, 4, 1, 1, 1, 1, 1, false, false⟩ : HParams).symmetric_mels = false →
      target_pad ⟨true, 4, 1, 1, 1, 1, 1, false, false⟩ = 0) ∧
    (pad_input [5] 2).length = 2 ∧
    (1 < [(5 : Int)].length → (pad_input [5] 2).getD 1 0 = [(5 : Int)].getD 1 0) ∧
    ([(5 : Int)].length ≤ 1 → 1 < 2 → (pad_input [5] 2).getD 1 0 = pad) ∧
    (pad_target (target_pad ⟨true, 4, 1, 1, 1, 1, 1, false, false⟩) [[3]] 2).length = 2 ∧
    (1 < [[(3 : Rat)]].length →
      (pad_target (target_pad ⟨true, 4, 1, 1, 1, 1, 1, false, false⟩) [[3]] 2).getD 1 []
        = [[(3 : Rat)]].getD 1 []) ∧
    ([[(3 : Rat)]].length ≤ 1 → 1 < 2 →
      (pad_target (target_pad ⟨true, 4, 1, 1, 1, 1, 1, false, false⟩) [[3]] 2).getD 1 []
        = List.replicate ([[(3 : Rat)]].headD []).length
            (target_pad ⟨true, 4, 1, 1, 1, 1, 1, false, false⟩)) ∧
    (pad_token_target [7] 2).length = 2 ∧
    (1 < [(7 : Rat)].length → (pad_token_target [7] 2).getD 1 0 = [(7 : Rat)].getD 1 0) ∧
    ([(7 : Rat)].length ≤ 1 → 1 < 2 → (pad_token_target [7] 2).getD 1 0 = token_pad) :=
  padding_values ⟨true, 4, 1, 1, 1, 1, 1, false, false⟩ [5] [[3]] [7] 2 2 2 1 0 0
    (by decide) (by decide) (by decide)

/-! ### Claim C10 -/

/-- C10: for `outputs_per_step = m ≥ 1` and a row `t` of a shard, the padded
stop-flag width strictly exceeds `t`'s unpadded length (it is
`round_up(max stop length + 1, m) ≥ max stop length + 1`), so every padded
stop-flag row — the longest one included — ends with the 1.0 'finished'
marker. -/
theorem stop_rows_end_finished (targets : List (List Rat)) (m : Nat) (t : List Rat)
    (hm : 1 ≤ m) (ht : t ∈ targets) :
    t.length < (prepare_token_targets targets m).2 ∧
    ∀ row ∈ (prepare_token_targets targets m).1,
      row.length = (prepare_token_targets targets m).2 ∧
      row.getD ((prepare_token_targets targets m).2 - 1) 0 = token_pad := by
  have hM : t.length ≤ maxNat (targets.map List.length) :=
    le_maxNat (List.mem_map_of_mem List.length ht)
  have hge : maxNat (targets.map List.length) + 1
      ≤ round_up (maxNat (targets.map List.length) + 1) m := le_round_up _ _ hm
  simp only [prepare_token_targets]
  refine ⟨by omega, ?_⟩
  intro row hrow
  simp only [List.mem_map] at hrow
  obtain ⟨u, hu, rfl⟩ := hrow
  have huM : u.length ≤ maxNat (targets.map List.length) :=
    le_maxNat (List.mem_map_of_mem List.length hu)
  constructor
  · simpa only [pad_token_target] using
      pad_length u token_pad (round_up (maxNat (targets.map List.length) + 1) m)
        (by omega)
  · simpa only [pad_token_target] using
      pad_getD_ge u token_pad 0 (round_up (maxNat (targets.map List.length) + 1) m)
        (round_up (maxNat (targets.map List.length) + 1) m - 1) (by omega) (by omega)

/-- Witness for C10 at a one-row shard of stop length 3 with `m = 4`. -/
theorem stop_rows_end_finished_witness :
    ([(0 : Rat), 0, 0].length < (prepare_token_targets [[0, 0, 0]] 4).2) ∧
    ∀ row ∈ (prepare_token_targets [[(0 : Rat), 0, 0]] 4).1,
      row.length = (prepare_token_targets [[(0 : Rat), 0, 0]] 4).2 ∧
      row.getD ((prepare_token_targets [[(0 : Rat), 0, 0]] 4).2 - 1) 0 = token_pad :=
  stop_rows_end_finished [[0, 0, 0]] 4 [0, 0, 0] (by decide) (by decide)

/-! ### Claim C5 -/

/-- C5 counterexample: `tacotron_batch_size = 3` with `tacotron_num_gpus = 2`
passes Feeder construction (which performs no divisibility check), and the
configuration error only surfaces as the failing assert inside
`_prepare_batch`, i.e. during batch preparation in the middle of a run. -/
theorem divisibility_not_checked_at_startup :
    (feeder_init ⟨false, 4, 2, 3, 1, 1, 1, false, false⟩
      [["a", "b", "x", "x", "5", "x", "hello", "3"]]).isSome = true ∧
    (prepare_batch ⟨false, 4, 2, 3, 1, 1, 1, false, false⟩
      [⟨[], [[0]], [], [[0]], "", none, 1⟩, ⟨[], [[0]], [], [[0]], "", none, 1⟩,
       ⟨[], [[0]], [], [[0]], "", none, 1⟩] 1).isNone = true := by
  decide

/-- C5 (amended): the divisibility error is never detected at startup —
`Feeder.__init__` succeeds on any metadata whose frame-count fields parse, for
every configuration — and is instead first detected by the
`assert 0 == len(batches) % tacotron_num_gpus` inside `_prepare_batch` during
a production-loop iteration. -/
theorem divisibility_checked_in_prepare_batch (hp : HParams)
    (metadata : List (List String)) (batches : List Example) (r : Nat)
    (hmeta : ∀ x ∈ metadata, (parse_int (x.getD 4 "")).isSome = true)
    (hdvd : ¬batches.length % hp.tacotron_num_gpus = 0) :
    (feeder_init hp metadata).isSome = true ∧
    (prepare_batch hp batches r).isNone = true := by
  constructor
  · have hall : metadata.all (fun x => (parse_int (x.getD 4 "")).isSome) = true := by
      rw [List.all_eq_true]
      exact hmeta
    unfold feeder_init
    rw [hall]
    rfl
  · simp only [prepare_batch]
    rw [if_pos hdvd]
    rfl

/-- Witness for C5 (amended) at the same concrete bad configuration. -/
theorem divisibility_checked_in_prepare_batch_witness :
    (feeder_init ⟨false, 4, 2, 3, 1, 1, 1, false, false⟩
      [["a", "b", "x", "x", "5", "x", "hello", "3"]]).isSome = true ∧
    (prepare_batch ⟨false, 4, 2, 3, 1, 1, 1, false, false⟩
      [⟨[], [[0]], [], [[0]], "", none, 1⟩, ⟨[], [[0]], [], [[0]], "", none, 1⟩,
       ⟨[], [[0]], [], [[0]], "", none, 1⟩] 1).isNone = true :=
  divisibility_checked_in_prepare_batch _ _ _ 1 (by decide) (by decide)

/-! ### Claim C4 -/

/-- HParams with linear-target prediction enabled, so the linear feature file
is actually read. -/
def hpLinear : HParams := ⟨false, 4, 1, 1, 1, 1, 1, true, false⟩

/-- The `|`-split of the metadata line `"a.npy|b.npy|x|x|5|x|hello|3"`. -/
def metaLine : List String := ["a.npy", "b.npy", "x", "x", "5", "x", "hello", "3"]

/-- C4 counterexample: on the line `"a.npy|b.npy|x|x|5|x|hello|3"`,
`_get_next_example` loads the mel array from `meta[1] = "b.npy"`, not from
`"a.npy"` (field 0) as claimed, and the linear array from `meta[2] = "x"`, not
from `"b.npy"` (field 1).  The loaders below return distinct arrays per file
name to expose which file is read. -/
theorem metadata_indices_counterexample :
    (get_next_example (fun _ => [7, 4, 11, 11, 14])
        (fun f => if f = "a.npy" then [[1]] else [[2]])
        (fun f => if f = "b.npy" then [[3]] else [[4]])
        (fun _ => []) hpLinear metaLine).mel_target = [[2]] ∧
    ([[2]] : List (List Rat)) ≠ [[1]] ∧
    (get_next_example (fun _ => [7, 4, 11, 11, 14])
        (fun f => if f = "a.npy" then [[1]] else [[2]])
        (fun f => if f = "b.npy" then [[3]] else [[4]])
        (fun _ => []) hpLinear metaLine).linear_target = [[4]] ∧
    ([[4]] : List (List Rat)) ≠ [[3]] := by
  decide

/-- C4 (amended): `_get_next_example` reads the text from field 6 and the
speaker id from field 7 as claimed, but the mel file name from field 1 and the
linear file name from field 2 (not fields 0 and 1); the frame count used at
startup comes from field 4.  On the example line the mel array is loaded from
`"b.npy"` and the linear array from `"x"`. -/
theorem metadata_indices (encode : String → List Int)
    (load_mel load_linear : String → List (List Rat)) (load_spk : String → List Rat)
    (hp : HParams) (meta : List String) (hlin : hp.predict_linear = true) :
    (get_next_example encode load_mel load_linear load_spk hp meta).input_data
      = encode (meta.getD 6 "") ∧
    (get_next_example encode load_mel load_linear load_spk hp meta).speaker_id
      = meta.getD 7 "" ∧
    (get_next_example encode load_mel load_linear load_spk hp meta).mel_target
      = load_mel (meta.getD 1 "") ∧
    (get_next_example encode load_mel load_linear load_spk hp meta).linear_target
      = load_linear (meta.getD 2 "") ∧
    frame_count meta = parse_int (meta.getD 4 "") := by
  refine ⟨rfl, rfl, rfl, ?_, rfl⟩
  simp only [get_next_example, hlin, if_true]

/-- Witness for C4 (amended) on the split of the example line, with loaders
that return distinct arrays per file name. -/
theorem metadata_indices_witness :
    (get_next_example (fun s => if s = "hello" then [7, 4, 11, 11, 14] else [])
        (fun f => if f = "b.npy" then [[1]] else [[9]])
        (fun f => if f = "x" then [[2]] else [[9]])
        (fun _ => []) hpLinear metaLine).input_data
      = (fun s => if s = "hello" then [7, 4, 11, 11, 14] else []) (metaLine.getD 6 "") ∧
    (get_next_example (fun s => if s = "hello" then [7, 4, 11, 11, 14] else [])
        (fun f => if f = "b.npy" then [[1]] else [[9]])
        (fun f => if f = "x" then [[2]] else [[9]])
        (fun _ => []) hpLinear metaLine).speaker_id = metaLine.getD 7 "" ∧
    (get_next_example (fun s => if s = "hello" then [7, 4, 11, 11, 14] else [])
        (fun f => if f = "b.npy" then [[1]] else [[9]])
        (fun f => if f = "x" then [[2]] else [[9]])
        (fun _ => []) hpLinear metaLine).mel_target
      = (fun f => if f = "b.npy" then [[1]] else [[9]]) (metaLine.getD 1 "") ∧
    (get_next_example (fun s => if s = "hello" then [7, 4, 11, 11, 14] else [])
        (fun f => if f = "b.npy" then [[1]] else [[9]])
        (fun f => if f = "x" then [[2]] else [[9]])
        (fun _ => []) hpLinear metaLine).linear_target
      = (fun f => if f = "x" then [[2]] else [[9]]) (metaLine.getD 2 "") ∧
    frame_count metaLine = parse_int (metaLine.getD 4 "") :=
  metadata_indices _ _ _ _ hpLinear metaLine rfl

/-! ### Claim C9 -/

/-- Auxiliary: after `k` blocking enqueue attempts from an empty queue with no
consumer, the queue buffers and the producer has produced `min k cap`
batches. -/
theorem iterate_try_enqueue (cap k : Nat) :
    (try_enqueue cap)^[k] ⟨0, 0⟩ = ⟨min k cap, min k cap⟩ := by
  induction k with
  | zero => simp
  | succ k ih =>
    rw [Function.iterate_succ_apply', ih]
    simp only [try_enqueue]
    by_cases h : min k cap < cap
    · rw [if_pos h]
      have hmin : min (k + 1) cap = min k cap + 1 := by omega
      rw [hmin]
    · rw [if_neg h]
      have hmin : min (k + 1) cap = min k cap := by omega
      rw [hmin]

/-- C9: with the bounded queue at capacity `queue_capacity = 64` (one group's
worth of batches, line 70) and no consumer dequeuing, the producer's total
production after any number of enqueue attempts is capped at
`queue_capacity`; an enqueue attempt on the full queue is blocked (leaves the
state unchanged, producing nothing), and production resumes exactly when the
consumer dequeues one batch. -/
theorem producer_backpressure (k : Nat) :
    ((try_enqueue queue_capacity)^[k] ⟨0, 0⟩).produced = min k queue_capacity ∧
    ∀ s : QueueState, s.queued = queue_capacity →
      try_enqueue queue_capacity s = s ∧
      (try_enqueue queue_capacity (dequeue_step s)).produced = s.produced + 1 := by
  constructor
  · rw [iterate_try_enqueue]
  · intro s hs
    constructor
    · simp [try_enqueue, hs]
    · simp [try_enqueue, dequeue_step, hs, queue_capacity, batches_per_group]

/-- Witness for C9: after 65 attempts with no consumer only 64 batches exist,
the full queue blocks an enqueue, and one dequeue unblocks production. -/
theorem producer_backpressure_witness :
    ((try_enqueue queue_capacity)^[65] ⟨0, 0⟩).produced = min 65 queue_capacity ∧
    (try_enqueue queue_capacity ⟨queue_capacity, 7⟩ = ⟨queue_capacity, 7⟩ ∧
     (try_enqueue queue_capacity (dequeue_step ⟨queue_capacity, 7⟩)).produced = 7 + 1) :=
  ⟨(producer_backpressure 65).1, (producer_backpressure 65).2 ⟨queue_capacity, 7⟩ rfl⟩

/-! ### Claim C8 -/

theorem make_batches_nil {α : Type} (n : Nat) (hn : 1 ≤ n) :
    make_batches n ([] : List α) = [] := by
  have h0 : (n - 1) / n = 0 := Nat.div_eq_of_lt (by omega)
  simp [make_batches, h0]

theorem make_batches_cons {α : Type} (n : Nat) (l : List α) (hn : 1 ≤ n)
    (hl : l ≠ []) :
    make_batches n l = l.take n :: make_batches n (l.drop n) := by
  have hL : 1 ≤ l.length := List.length_pos.mpr hl
  have hcount : (l.length + n - 1) / n = ((l.drop n).length + n - 1) / n + 1 := by
    rw [List.length_drop]
    by_cases h : n ≤ l.length
    · have h1 : l.length - n + n - 1 = l.length - 1 := by omega
      have h2 : l.length + n - 1 = l.length - 1 + n := by omega
      rw [h1, h2, Nat.add_div_right _ hn]
    · have h1 : l.length - n + n - 1 = n - 1 := by omega
      have h2 : (n - 1) / n = 0 := Nat.div_eq_of_lt (by omega)
      have h3 : (l.length + n - 1) / n = 1 :=
        Nat.div_eq_of_lt_le (by omega) (by omega)
      rw [h1, h2, h3]
  simp only [make_batches]
  rw [hcount, List.range_succ_eq_map, List.map_cons, List.map_map]
  congr 1
  · simp
  · refine List.map_congr_left (fun k hk => ?_)
    simp only [Function.comp_apply]
    rw [List.drop_drop, Nat.succ_mul, Nat.add_comm (k * n) n]

theorem flatten_make_batches_aux {α : Type} (n : Nat) (hn : 1 ≤ n) :
    ∀ (N : Nat) (l : List α), l.length ≤ N → (make_batches n l).flatten = l := by
  intro N
  induction N with
  | zero =>
    intro l hl
    have h0 : l = [] := List.eq_nil_of_length_eq_zero (by omega)
    subst h0
    rw [make_batches_nil n hn]
    rfl
  | succ N ih =>
    intro l hl
    by_cases hnil : l = []
    · subst hnil
      rw [make_batches_nil n hn]
      rfl
    · rw [make_batches_cons n l hn hnil, List.flatten_cons,
        ih (l.drop n) (by rw [List.length_drop]; omega), List.take_append_drop]

theorem flatten_make_batches {α : Type} (n : Nat) (hn : 1 ≤ n) (l : List α) :
    (make_batches n l).flatten = l :=
  flatten_make_batches_aux n hn l.length l (le_refl _)

theorem group_count_eq {n : Nat} (hn : 1 ≤ n) :
    (n * batches_per_group + n - 1) / n = batches_per_group := by
  have h1 : n * batches_per_group + n - 1 = n * batches_per_group + (n - 1) := by
    omega
  rw [h1, Nat.mul_add_div (by omega), Nat.div_eq_of_lt (by omega)]
  omega

theorem min_take_helper (s A L : Nat) (h : A + s ≤ L) : min s (L - A) = s := by
  omega

/-- C8: the production loop sorts the drawn group ascending by true mel
length, slices it into `_batches_per_group` contiguous chunks of exactly
`batch_size = n`, and then only the chunk order is shuffled
(`np.random.shuffle(batches)` permutes the list of chunks): every emitted
chunk is a contiguous run of the sorted group, and the examples across all
emitted chunks are, as a multiset, exactly the drawn group. -/
theorem group_bucketing (examples : List Example) (n : Nat)
    (shuffled : List (List Example)) (hn : 1 ≤ n)
    (hlen : examples.length = n * batches_per_group)
    (hperm : shuffled.Perm (make_batches n (sort_examples examples))) :
    (sort_examples examples).Pairwise (fun a b => a.mel_length ≤ b.mel_length) ∧
    shuffled.length = batches_per_group ∧
    (∀ c ∈ shuffled, c.length = n ∧
      ∃ k, c = ((sort_examples examples).drop (k * n)).take n) ∧
    shuffled.flatten.Perm examples := by
  have hsortlen : (sort_examples examples).length = n * batches_per_group := by
    rw [sort_examples, List.length_mergeSort, hlen]
  refine ⟨?_, ?_, ?_, ?_⟩
  · rw [sort_examples]
    have hs := @List.sorted_mergeSort Example
      (fun a b => decide (a.mel_length ≤ b.mel_length))
      (fun a b c hab hbc => by
        simp only [decide_eq_true_eq] at hab hbc ⊢
        omega)
      (fun a b => by
        simp only [Bool.or_eq_true, decide_eq_true_eq]
        omega)
      examples
    exact hs.imp (fun h => of_decide_eq_true h)
  · rw [hperm.length_eq]
    simp only [make_batches, List.length_map, List.length_range, hsortlen]
    exact group_count_eq hn
  · intro c hc
    have hc2 : c ∈ make_batches n (sort_examples examples) := hperm.mem_iff.mp hc
    simp only [make_batches, List.mem_map, List.mem_range] at hc2
    obtain ⟨k, hk, rfl⟩ := hc2
    rw [hsortlen, group_count_eq hn] at hk
    have hbound : k * n + n ≤ (sort_examples examples).length := by
      calc k * n + n = (k + 1) * n := (Nat.succ_mul k n).symm
        _ ≤ batches_per_group * n := Nat.mul_le_mul_right n hk
        _ = (sort_examples examples).length := by rw [hsortlen, Nat.mul_comm]
    refine ⟨?_, k, rfl⟩
    rw [List.length_take, List.length_drop]
    exact min_take_helper _ _ _ hbound
  · exact (hperm.flatten.trans
      (List.Perm.of_eq (flatten_make_batches n hn _))).trans
      (List.mergeSort_perm examples _)

/-- A concrete example value for the C8 witness group. -/
def exampleZero : Example := ⟨[], [[0]], [], [[0]], "", none, 1⟩

/-- Witness for C8 with `batch_size = 1` and the identity shuffle of the 64
one-example chunks. -/
theorem group_bucketing_witness :
    (sort_examples (List.replicate 64 exampleZero)).Pairwise
      (fun a b => a.mel_length ≤ b.mel_length) ∧
    (make_batches 1 (sort_examples (List.replicate 64 exampleZero))).length
      = batches_per_group ∧
    (∀ c ∈ make_batches 1 (sort_examples (List.replicate 64 exampleZero)),
      c.length = 1 ∧
      ∃ k, c = ((sort_examples (List.replicate 64 exampleZero)).drop (k * 1)).take 1) ∧
    (make_batches 1 (sort_examples (List.replicate 64 exampleZero))).flatten.Perm
      (List.replicate 64 exampleZero) :=
  group_bucketing (List.replicate 64 exampleZero) 1 _ (by decide)
    (by simp [batches_per_group]) (List.Perm.refl _)

/-! ### Claim C1 -/

theorem foldl_concat_step_some {α : Type} (rest : List (List (List α)))
    (a : List (List α)) :
    rest.foldl concat_step (some a) = some (rest.foldl concat_axis1 a) := by
  induction rest generalizing a with
  | nil => rfl
  | cons x xs ih =>
    simp only [List.foldl_cons]
    exact ih (concat_axis1 a x)

theorem concat_devices_cons {α : Type} (t : List (List α))
    (rest : List (List (List α))) :
    concat_devices (t :: rest) = some (rest.foldl concat_axis1 t) := by
  simp only [concat_devices, List.foldl_cons]
  exact foldl_concat_step_some rest t

theorem concat_axis1_length {α : Type} (a b : List (List α)) :
    (concat_axis1 a b).length = min a.length b.length := by
  simp [concat_axis1]

theorem concat_axis1_getD {α : Type} (a b : List (List α)) (j : Nat)
    (ha : j < a.length) (hb : j < b.length) :
    (concat_axis1 a b).getD j [] = a.getD j [] ++ b.getD j [] := by
  simp only [concat_axis1, List.getD_eq_getElem?_getD, List.getElem?_zipWith,
    List.getElem?_eq_getElem ha, List.getElem?_eq_getElem hb]
  rfl

theorem foldl_concat_axis1_spec {α : Type} (ts : List (List (List α)))
    (a : List (List α)) (R : Nat) (hA : a.length = R)
    (hts : ∀ t ∈ ts, t.length = R) :
    (ts.foldl concat_axis1 a).length = R ∧
    ∀ j, j < R → (ts.foldl concat_axis1 a).getD j []
      = a.getD j [] ++ (ts.map (fun t => t.getD j [])).flatten := by
  induction ts generalizing a with
  | nil => exact ⟨hA, fun j hj => by simp⟩
  | cons x xs ih =>
    have hx : x.length = R := hts x (List.mem_cons_self x xs)
    have hcx : (concat_axis1 a x).length = R := by
      rw [concat_axis1_length, hA, hx, Nat.min_self]
    obtain ⟨ihL, ihG⟩ :=
      ih (concat_axis1 a x) hcx (fun t ht => hts t (List.mem_cons_of_mem x ht))
    refine ⟨by simpa only [List.foldl_cons] using ihL, fun j hj => ?_⟩
    simp only [List.foldl_cons, List.map_cons, List.flatten_cons]
    rw [ihG j hj, concat_axis1_getD a x j (by omega) (by omega), List.append_assoc]

theorem concat_devices_of_uniform {α : Type} (g R : Nat) (f : Nat → List (List α))
    (hg : 1 ≤ g) (hf : ∀ i, i < g → (f i).length = R) :
    ((concat_devices ((List.range g).map f)).getD []).length = R ∧
    ∀ j, j < R → ((concat_devices ((List.range g).map f)).getD []).getD j []
      = ((List.range g).map (fun i => (f i).getD j [])).flatten := by
  obtain ⟨g', rfl⟩ : ∃ g', g = g' + 1 := ⟨g - 1, by omega⟩
  simp only [List.range_succ_eq_map, List.map_cons, List.map_map, List.flatten_cons,
    concat_devices_cons, Option.getD_some]
  obtain ⟨hL, hG⟩ := foldl_concat_axis1_spec ((List.range g').map (f ∘ Nat.succ))
    (f 0) R (hf 0 (by omega))
    (by
      intro t ht
      obtain ⟨i, hi, rfl⟩ := List.mem_map.mp ht
      have hi2 := List.mem_range.mp hi
      exact hf (Nat.succ i) (by omega))
  refine ⟨hL, fun j hj => ?_⟩
  rw [hG j hj, List.map_map]
  simp only [Function.comp_def]

theorem device_batch_length (hp : HParams) (batches : List Example) (i : Nat)
    (hdvd : batches.length % hp.tacotron_num_gpus = 0)
    (hi : i < hp.tacotron_num_gpus) :
    (device_batch hp batches i).length
      = batches.length / hp.tacotron_num_gpus := by
  have hmul : batches.length / hp.tacotron_num_gpus * hp.tacotron_num_gpus
      = batches.length := Nat.div_mul_cancel (Nat.dvd_of_mod_eq_zero hdvd)
  have hbound : batches.length / hp.tacotron_num_gpus * i
      + batches.length / hp.tacotron_num_gpus ≤ batches.length := by
    calc batches.length / hp.tacotron_num_gpus * i
          + batches.length / hp.tacotron_num_gpus
        = batches.length / hp.tacotron_num_gpus * (i + 1) := by ring
      _ ≤ batches.length / hp.tacotron_num_gpus * hp.tacotron_num_gpus :=
        Nat.mul_le_mul_left _ hi
      _ = batches.length := hmul
  simp only [device_batch]
  rw [List.length_take, List.length_drop]
  exact min_take_helper _ _ _ hbound

theorem device_inputs_length (hp : HParams) (batches : List Example) (i : Nat)
    (hdvd : batches.length % hp.tacotron_num_gpus = 0)
    (hi : i < hp.tacotron_num_gpus) :
    (device_inputs hp batches i).1.length
      = batches.length / hp.tacotron_num_gpus := by
  simp only [device_inputs, prepare_inputs, List.length_map]
  exact device_batch_length hp batches i hdvd hi

theorem device_mel_targets_length (hp : HParams) (batches : List Example) (r i : Nat)
    (hdvd : batches.length % hp.tacotron_num_gpus = 0)
    (hi : i < hp.tacotron_num_gpus) :
    (device_mel_targets hp batches r i).1.length
      = batches.length / hp.tacotron_num_gpus := by
  simp only [device_mel_targets, prepare_targets, List.length_map]
  exact device_batch_length hp batches i hdvd hi

theorem device_token_targets_length (hp : HParams) (batches : List Example) (r i : Nat)
    (hdvd : batches.length % hp.tacotron_num_gpus = 0)
    (hi : i < hp.tacotron_num_gpus) :
    (device_token_targets hp batches r i).1.length
      = batches.length / hp.tacotron_num_gpus := by
  simp only [device_token_targets, prepare_token_targets, List.length_map]
  exact device_batch_length hp batches i hdvd hi

theorem device_linear_targets_length (hp : HParams) (batches : List Example) (r i : Nat)
    (hdvd : batches.length % hp.tacotron_num_gpus = 0)
    (hi : i < hp.tacotron_num_gpus) :
    (device_linear_targets hp batches r i).1.length
      = batches.length / hp.tacotron_num_gpus := by
  simp only [device_linear_targets, prepare_targets, List.length_map]
  exact device_batch_length hp batches i hdvd hi

/-- C1 (amended): when the batch divides evenly over `tacotron_num_gpus ≥ 1`
devices, `_prepare_batch` succeeds and each global tensor is the concatenation
of the per-device padded shard tensors along **axis 1** (the time axis), not
axis 0: each tensor has `size_per_device` rows (not `len(batches)` rows), and
its `j`-th row is the j-th rows of all device shard tensors appended in device
order.  Shards must agree in row count and feature width, while their padded
time lengths may differ. -/
theorem prepare_batch_axis1 (hp : HParams) (batches : List Example) (r : Nat)
    (hg : 1 ≤ hp.tacotron_num_gpus)
    (hdvd : batches.length % hp.tacotron_num_gpus = 0) :
    prepare_batch hp batches r = some (prepare_batch_val hp batches r) ∧
    (prepare_batch_val hp batches r).inputs.length
      = batches.length / hp.tacotron_num_gpus ∧
    (prepare_batch_val hp batches r).mel_targets.length
      = batches.length / hp.tacotron_num_gpus ∧
    (prepare_batch_val hp batches r).token_targets.length
      = batches.length / hp.tacotron_num_gpus ∧
    (prepare_batch_val hp batches r).linear_targets.length
      = batches.length / hp.tacotron_num_gpus ∧
    ∀ j, j < batches.length / hp.tacotron_num_gpus →
      (prepare_batch_val hp batches r).inputs.getD j []
        = ((List.range hp.tacotron_num_gpus).map
          (fun i => (device_inputs hp batches i).1.getD j [])).flatten ∧
      (prepare_batch_val hp batches r).mel_targets.getD j []
        = ((List.range hp.tacotron_num_gpus).map
          (fun i => (device_mel_targets hp batches r i).1.getD j [])).flatten ∧
      (prepare_batch_val hp batches r).token_targets.getD j []
        = ((List.range hp.tacotron_num_gpus).map
          (fun i => (device_token_targets hp batches r i).1.getD j [])).flatten ∧
      (prepare_batch_val hp batches r).linear_targets.getD j []
        = ((List.range hp.tacotron_num_gpus).map
          (fun i => (device_linear_targets hp batches r i).1.getD j [])).flatten := by
  obtain ⟨hIL, hIG⟩ := concat_devices_of_uniform hp.tacotron_num_gpus
    (batches.length / hp.tacotron_num_gpus)
    (fun i => (device_inputs hp batches i).1) hg
    (fun i hi => device_inputs_length hp batches i hdvd hi)
  obtain ⟨hML, hMG⟩ := concat_devices_of_uniform hp.tacotron_num_gpus
    (batches.length / hp.tacotron_num_gpus)
    (fun i => (device_mel_targets hp batches r i).1) hg
    (fun i hi => device_mel_targets_length hp batches r i hdvd hi)
  obtain ⟨hTL, hTG⟩ := concat_devices_of_uniform hp.tacotron_num_gpus
    (batches.length / hp.tacotron_num_gpus)
    (fun i => (device_token_targets hp batches r i).1) hg
    (fun i hi => device_token_targets_length hp batches r i hdvd hi)
  obtain ⟨hLL, hLG⟩ := concat_devices_of_uniform hp.tacotron_num_gpus
    (batches.length / hp.tacotron_num_gpus)
    (fun i => (device_linear_targets hp batches r i).1) hg
    (fun i hi => device_linear_targets_length hp batches r i hdvd hi)
  refine ⟨?_, hIL, hML, hTL, hLL,
    fun j hj => ⟨hIG j hj, hMG j hj, hTG j hj, hLG j hj⟩⟩
  simp only [prepare_batch]
  rw [if_neg (by simp [hdvd])]

/-- HParams used in the C1 counterexample: two devices. -/
def hpTwoGpu : HParams := ⟨false, 4, 2, 2, 1, 1, 1, false, false⟩

/-- A two-example batch with different token lengths, one example per
device. -/
def exsTwoGpu : List Example :=
  [⟨[1], [[0]], [], [[0]], "", none, 1⟩,
   ⟨[2, 3], [[0], [0]], [0], [[0], [0]], "", none, 2⟩]

/-- C1 counterexample: with two devices and one example per device,
`_prepare_batch` produces the inputs tensor `[[1, 2, 3]]` — one row, the two
padded shard rows glued along the time axis — whereas concatenating the two
padded shard tensors along the batch axis (axis 0), as the claim states, gives
`[[1], [2, 3]]`.  The claim's stacking of shard rows does not describe the
code. -/
theorem prepare_batch_not_axis0 :
    (prepare_batch hpTwoGpu exsTwoGpu 1).map PreparedBatch.inputs
      = some [[1, 2, 3]] ∧
    specConcatAxis0
        [(device_inputs hpTwoGpu exsTwoGpu 0).1, (device_inputs hpTwoGpu exsTwoGpu 1).1]
      = [[1], [2, 3]] ∧
    ¬(prepare_batch hpTwoGpu exsTwoGpu 1).map PreparedBatch.inputs
      = some (specConcatAxis0
        [(device_inputs hpTwoGpu exsTwoGpu 0).1,
         (device_inputs hpTwoGpu exsTwoGpu 1).1]) := by
  decide

/-- Witness for C1 (amended) at the concrete two-device batch below. -/
theorem prepare_batch_axis1_witness :
    prepare_batch hpTwoGpu exsTwoGpu 1 = some (prepare_batch_val hpTwoGpu exsTwoGpu 1) ∧
    (prepare_batch_val hpTwoGpu exsTwoGpu 1).inputs.length
      = exsTwoGpu.length / hpTwoGpu.tacotron_num_gpus ∧
    (prepare_batch_val hpTwoGpu exsTwoGpu 1).mel_targets.length
      = exsTwoGpu.length / hpTwoGpu.tacotron_num_gpus ∧
    (prepare_batch_val hpTwoGpu exsTwoGpu 1).token_targets.length
      = exsTwoGpu.length / hpTwoGpu.tacotron_num_gpus ∧
    (prepare_batch_val hpTwoGpu exsTwoGpu 1).linear_targets.length
      = exsTwoGpu.length / hpTwoGpu.tacotron_num_gpus ∧
    ∀ j, j < exsTwoGpu.length / hpTwoGpu.tacotron_num_gpus →
      (prepare_batch_val hpTwoGpu exsTwoGpu 1).inputs.getD j []
        = ((List.range hpTwoGpu.tacotron_num_gpus).map
          (fun i => (device_inputs hpTwoGpu exsTwoGpu i).1.getD j [])).flatten ∧
      (prepare_batch_val hpTwoGpu exsTwoGpu 1).mel_targets.getD j []
        = ((List.range hpTwoGpu.tacotron_num_gpus).map
          (fun i => (device_mel_targets hpTwoGpu exsTwoGpu 1 i).1.getD j [])).flatten ∧
      (prepare_batch_val hpTwoGpu exsTwoGpu 1).token_targets.getD j []
        = ((List.range hpTwoGpu.tacotron_num_gpus).map
          (fun i => (device_token_targets hpTwoGpu exsTwoGpu 1 i).1.getD j [])).flatten ∧
      (prepare_batch_val hpTwoGpu exsTwoGpu 1).linear_targets.getD j []
        = ((List.range hpTwoGpu.tacotron_num_gpus).map
          (fun i => (device_linear_targets hpTwoGpu exsTwoGpu 1 i).1.getD j [])).flatten :=
  prepare_batch_axis1 hpTwoGpu exsTwoGpu 1 (by decide) (by decide)

end Tacotron
